import Mathlib

/-
Verification development for the token-visualizer repository.

The repository is a browser UI that sends text to an external BPE
tokenizer (tiktoken), decodes each produced token id to bytes, decodes
those bytes as UTF-8 for display, and renders the resulting token list
through a virtualized grid.  The definitions below are a shallow
embedding of the component logic in src/components/token-visualizer.tsx
(the current snapshot, lines 1-485), of the colour helpers in
src/lib/utils.ts, and of the worker script bundled in the repository.

JS strings are modelled as lists of Unicode scalar values; byte
sequences as lists of naturals below 256.  TextDecoder("utf-8") (a
non-fatal decoder) is modelled by a UTF-8 decoder that replaces invalid
sequences with U+FFFD; it is exact on valid sequences, and its
resynchronisation on invalid input follows the WHATWG behaviour on the
inputs used here.
-/

set_option autoImplicit false

namespace TokViz

/-- A JS string, modelled as its list of Unicode scalar values. -/
abbrev Text := List Nat

/-- A byte sequence, modelled as a list of naturals below 256. -/
abbrev Bytes := List Nat

/-- A Unicode scalar value: below 0x110000 and not a surrogate. -/
def ScalarValue (c : Nat) : Prop := c < 1114112 ∧ (c < 55296 ∨ 57344 ≤ c)

instance (c : Nat) : Decidable (ScalarValue c) := by
  unfold ScalarValue; infer_instance

/-- Every code point of the text is a Unicode scalar value. -/
def ScalarText (t : Text) : Prop := ∀ c ∈ t, ScalarValue c

instance (t : Text) : Decidable (ScalarText t) := by
  unfold ScalarText; infer_instance

/-- UTF-8 encoding of a single Unicode scalar value. -/
def utf8EncodeChar (c : Nat) : Bytes :=
  if c < 128 then [c]
  else if c < 2048 then [192 + c / 64, 128 + c % 64]
  else if c < 65536 then [224 + c / 4096, 128 + c / 64 % 64, 128 + c % 64]
  else [240 + c / 262144, 128 + c / 4096 % 64, 128 + c / 64 % 64, 128 + c % 64]

/-- UTF-8 encoding of a text (model of TextEncoder().encode). -/
def utf8Encode (t : Text) : Bytes := t.flatMap utf8EncodeChar

/-- One step of UTF-8 decoding with replacement: given the first byte
and the remaining bytes, produce the decoded scalar value (U+FFFD for
an invalid sequence) and the bytes still to be decoded. -/
def utf8Step (b0 : Nat) (rest : Bytes) : Nat × Bytes :=
  if b0 < 128 then (b0, rest)
  else if b0 < 194 then (65533, rest)
  else if b0 < 224 then
    match rest with
    | b1 :: rest2 =>
      if 128 ≤ b1 ∧ b1 < 192 then ((b0 - 192) * 64 + (b1 - 128), rest2)
      else (65533, b1 :: rest2)
    | [] => (65533, [])
  else if b0 < 240 then
    match rest with
    | b1 :: b2 :: rest3 =>
      if 128 ≤ b1 ∧ b1 < 192 ∧ 128 ≤ b2 ∧ b2 < 192 then
        if 2048 ≤ (b0 - 224) * 4096 + (b1 - 128) * 64 + (b2 - 128) ∧
           ((b0 - 224) * 4096 + (b1 - 128) * 64 + (b2 - 128) < 55296 ∨
            57344 ≤ (b0 - 224) * 4096 + (b1 - 128) * 64 + (b2 - 128)) then
          ((b0 - 224) * 4096 + (b1 - 128) * 64 + (b2 - 128), rest3)
        else (65533, b1 :: b2 :: rest3)
      else (65533, b1 :: b2 :: rest3)
    | rest => (65533, rest)
  else if b0 < 245 then
    match rest with
    | b1 :: b2 :: b3 :: rest4 =>
      if 128 ≤ b1 ∧ b1 < 192 ∧ 128 ≤ b2 ∧ b2 < 192 ∧ 128 ≤ b3 ∧ b3 < 192 then
        if 65536 ≤ (b0 - 240) * 262144 + (b1 - 128) * 4096 + (b2 - 128) * 64 + (b3 - 128) ∧
           (b0 - 240) * 262144 + (b1 - 128) * 4096 + (b2 - 128) * 64 + (b3 - 128) < 1114112 then
          ((b0 - 240) * 262144 + (b1 - 128) * 4096 + (b2 - 128) * 64 + (b3 - 128), rest4)
        else (65533, b1 :: b2 :: b3 :: rest4)
      else (65533, b1 :: b2 :: b3 :: rest4)
    | rest => (65533, rest)
  else (65533, rest)

/-- The decoding loop, written with an explicit fuel argument
(initialised to the input length by utf8DecodeRepl) so that it is
structurally recursive; any fuel of at least the input length gives
the same result. -/
def utf8DecodeLoop : Nat → Bytes → Text
  | _, [] => []
  | 0, _ :: _ => []
  | fuel + 1, b0 :: rest =>
    (utf8Step b0 rest).1 :: utf8DecodeLoop fuel (utf8Step b0 rest).2

/-- UTF-8 decoding with replacement (model of new TextDecoder("utf-8"),
which is non-fatal and substitutes U+FFFD for invalid sequences).  It is
exact on valid UTF-8; on invalid input it emits U+FFFD and resumes. -/
def utf8DecodeRepl (b : Bytes) : Text := utf8DecodeLoop b.length b

/-- UTF-16 code-unit length of a text: the JS string .length used for
the charCount in the tokenize effect (token-visualizer.tsx line 171). -/
def jsLength (t : Text) : Nat := (t.map (fun c => if c < 65536 then 1 else 2)).sum

/-- Modelled from the spec: the external tokenizer capability of spec
section 6 (the tiktoken WASM library, which is not part of this
repository).  A model resolves to an encoding exposing
encode(text) -> token ids and decodeSingleTokenBytes(id) -> bytes,
plus a human-readable encoding name. -/
structure Encoding where
  name : String
  encode : Text → List Nat
  decodeSingleTokenBytes : Nat → Bytes

/-- The spec's BPE guarantee for an encoding at a given input
(spec section 3, TokenStream): concatenating the byte sequences of the
produced token ids, in order, reproduces the UTF-8 bytes of the input
exactly. -/
def ByteFaithfulOn (enc : Encoding) (t : Text) : Prop :=
  ((enc.encode t).map enc.decodeSingleTokenBytes).flatten = utf8Encode t

instance (enc : Encoding) (t : Text) : Decidable (ByteFaithfulOn enc t) := by
  unfold ByteFaithfulOn; infer_instance

/-- A byte sequence is valid UTF-8: it is the encoding of some text of
scalar values. -/
def ValidUtf8 (b : Bytes) : Prop := ∃ t, ScalarText t ∧ b = utf8Encode t

/-- A concrete modelled encoding whose vocabulary is the 256 single
bytes (every byte-level BPE vocabulary contains these as tokens; an
input fragment that undergoes no merges is emitted as such tokens). -/
def byteLevelEncoding (nm : String) : Encoding :=
  { name := nm
    encode := fun t => utf8Encode t
    decodeSingleTokenBytes := fun id => [id] }

/-- The byte-level modelled encoding under the default model name. -/
def byteLevelEnc : Encoding := byteLevelEncoding "o200k_base"

/-- A second byte-level modelled encoding, for model-switch scenarios. -/
def byteLevelEnc2 : Encoding := byteLevelEncoding "cl100k_base"

/-- The colour palette TOKEN_COLORS of src/lib/utils.ts
(background, border). -/
def TOKEN_COLORS : List (String × String) :=
  [("#3b82f6", "#1d4ed8"),
   ("#8b5cf6", "#6d28d9"),
   ("#ec4899", "#be185d"),
   ("#f43f5e", "#be123c"),
   ("#f97316", "#c2410c"),
   ("#eab308", "#a16207"),
   ("#22c55e", "#15803d"),
   ("#14b8a6", "#0f766e"),
   ("#06b6d4", "#0e7490"),
   ("#6366f1", "#4338ca"),
   ("#a855f7", "#7e22ce"),
   ("#ef4444", "#b91c1c")]

/-- getTokenColor of src/lib/utils.ts. -/
def getTokenColor (index : Nat) : String :=
  (TOKEN_COLORS.get ⟨index % TOKEN_COLORS.length, Nat.mod_lt _ (by decide)⟩).1

/-- getTokenBorderColor of src/lib/utils.ts. -/
def getTokenBorderColor (index : Nat) : String :=
  (TOKEN_COLORS.get ⟨index % TOKEN_COLORS.length, Nat.mod_lt _ (by decide)⟩).2

/-- The TokenInfo record of token-visualizer.tsx lines 18-23. -/
structure TokenInfo where
  id : Nat
  text : Text
  color : String
  borderColor : String
deriving DecidableEq

/-- The token-building loop of the tokenize effect
(token-visualizer.tsx lines 157-168): for each token id, decode that
single token's bytes, decode them as UTF-8, and attach the colours
derived from the sequence index. -/
def buildTokens (enc : Encoding) : List Nat → Nat → List TokenInfo
  | [], _ => []
  | id :: rest, i =>
    { id := id
      text := utf8DecodeRepl (enc.decodeSingleTokenBytes id)
      color := getTokenColor i
      borderColor := getTokenBorderColor i } :: buildTokens enc rest (i + 1)

/-- The state written by the tokenize effect. -/
structure TokenizeResult where
  tokens : List TokenInfo
  tokenCount : Nat
  charCount : Nat
deriving DecidableEq

/-- The tokenize effect of token-visualizer.tsx lines 151-177: for a
truthy (nonempty) debounced text, encode it, build the token list and
set the counts; for the empty text, set an empty stream and zero counts
without touching the encoder. -/
def tokenizeEffect (enc : Encoding) (debouncedText : Text) : TokenizeResult :=
  if debouncedText ≠ [] then
    { tokens := buildTokens enc (enc.encode debouncedText) 0
      tokenCount := (enc.encode debouncedText).length
      charCount := jsLength debouncedText }
  else
    { tokens := [], tokenCount := 0, charCount := 0 }

/-- join(tokens.map(t=>t.text)) as in handleCopyTokens
(token-visualizer.tsx lines 196-200) and in the spec round-trip
property. -/
def joinTokenTexts (tokens : List TokenInfo) : Text :=
  (tokens.map (·.text)).flatten

/-- The component state of TokenVisualizer (token-visualizer.tsx lines
80-89): text, its debounced snapshot (useDebounce(text, 1000)), the
loaded encoder (tiktokenRef after the model effect of lines 137-149),
the token stream state and the selection. -/
structure CompState where
  text : Text
  debouncedText : Text
  enc : Encoding
  tokens : List TokenInfo
  tokenCount : Nat
  charCount : Nat
  selectedToken : Option TokenInfo

/-- Running the tokenize effect (lines 151-177) followed by the
auto-select effect (lines 180-186): the tokenize effect replaces the
token stream and the counts; the auto-select effect, which fires on
every new tokens array, selects tokens[0] for a nonempty stream and
null otherwise (head? of the new stream). -/
def runTokenizeAndSelect (s : CompState) : CompState :=
  let r := tokenizeEffect s.enc s.debouncedText
  { s with
    tokens := r.tokens
    tokenCount := r.tokenCount
    charCount := r.charCount
    selectedToken := r.tokens.head? }

/-- The events driving the component: a text edit (setText), the
debounce timer delivering the latest text (useDebounce committing
text into debouncedText after the quiet period), a model change
(encoding_for_model loading the new encoder), and a click on the
rendered token cell at a flat index. -/
inductive Event where
  | setText (t : Text)
  | debounceFire
  | setModel (enc : Encoding)
  | clickToken (i : Nat)

/-- One control-thread transition of the component.  A text edit only
updates the raw text (the tokenize effect depends on debouncedText and
model, not text).  The debounce firing commits text into debouncedText;
if the value is unchanged React bails out and no effect reruns,
otherwise the tokenize and auto-select effects run.  A model change
swaps the encoder and immediately reruns the tokenize effect with the
current debouncedText (effect deps line 177: [debouncedText, model]).
A click selects the clicked cell's token (line 379). -/
def step (s : CompState) (e : Event) : CompState :=
  match e with
  | .setText t => { s with text := t }
  | .debounceFire =>
    if s.debouncedText = s.text then s
    else runTokenizeAndSelect { s with debouncedText := s.text }
  | .setModel enc => runTokenizeAndSelect { s with enc := enc }
  | .clickToken i =>
    match s.tokens.get? i with
    | some tok => { s with selectedToken := some tok }
    | none => s

/-- Processing a sequence of events. -/
def run (s : CompState) : List Event → CompState
  | [] => s
  | e :: es => run (step s e) es

/-- A component state with empty text and stream and no selection. -/
def emptyState : CompState :=
  { text := []
    debouncedText := []
    enc := byteLevelEnc
    tokens := []
    tokenCount := 0
    charCount := 0
    selectedToken := none }

/-- A state in which the user has typed "H" but the debounce has not
yet fired. -/
def demoPendingState : CompState :=
  { emptyState with text := [72] }

/-- The selection invariant of spec section 3: the selection, if
present, refers to a token of the current live stream. -/
def selectionInvariant (s : CompState) : Prop :=
  s.selectedToken = none ∨ ∃ tok ∈ s.tokens, s.selectedToken = some tok

/-- TOKEN_MIN_WIDTH of token-visualizer.tsx line 35. -/
def TOKEN_MIN_WIDTH : ℚ := 80

/-- TOKEN_HEIGHT of token-visualizer.tsx line 36. -/
def TOKEN_HEIGHT : ℚ := 35

/-- The grid layout state (useState at lines 88-89): gridColumns starts
at 1 and columnWidth at TOKEN_MIN_WIDTH. -/
structure GridState where
  gridColumns : Nat
  columnWidth : ℚ
deriving DecidableEq

/-- The column computation of the ResizeObserver callback
(token-visualizer.tsx line 127):
Math.max(1, Math.floor(width / TOKEN_MIN_WIDTH) - 4). -/
def computeColumns (width : ℚ) : Nat :=
  (max 1 (Int.floor (width / TOKEN_MIN_WIDTH) - 4)).toNat

/-- The ResizeObserver callback (lines 123-132): only entries with a
positive content width update the grid; the new column count comes from
computeColumns and the column width is the container width divided by
that count.  Widths that are not positive leave the state unchanged. -/
def applyResize (g : GridState) (width : ℚ) : GridState :=
  if 0 < width then
    { gridColumns := computeColumns width
      columnWidth := width / (computeColumns width : ℚ) }
  else g

/-- The initial grid state (useState(1), useState(TOKEN_MIN_WIDTH)). -/
def initialGridState : GridState :=
  { gridColumns := 1, columnWidth := TOKEN_MIN_WIDTH }

/-- rowCount of token-visualizer.tsx line 105:
Math.ceil(tokens.length / gridColumns). -/
def rowCount (numTokens gridColumns : Nat) : Nat :=
  (Int.ceil ((numTokens : ℚ) / (gridColumns : ℚ))).toNat

/-- The flat token index of a visible cell (line 369):
virtualRow.index * gridColumns + virtualColumn.index. -/
def cellTokenIndex (row col gridColumns : Nat) : Nat :=
  row * gridColumns + col

/-- The virtualized cell renderer (lines 369-389): look up the token at
the flat index; a missing token renders nothing (line 372:
if (!token) return null). -/
def renderCell (tokens : List TokenInfo) (row col gridColumns : Nat) :
    Option TokenInfo :=
  tokens.get? (cellTokenIndex row col gridColumns)

/-- The isSelected computation of the rendered cell (line 378):
selectedToken?.id === token.id (false when nothing is selected, since
undefined === id is false). -/
def isSelectedFlag (selectedToken : Option TokenInfo) (token : TokenInfo) :
    Bool :=
  match selectedToken with
  | some s => s.id == token.id
  | none => false

/-- The worker replies of the bundled worker script (the message
protocol of spec section 6): ready at startup, complete with the stream
payload, or error. -/
inductive WorkerReply where
  | ready
  | complete (tokens : List TokenInfo) (tokenCount charCount : Nat)
      (encodingName : String)
  | error (msg : String)

/-- The worker's onmessage handler from the worker script bundled in
the repository: resolve the model (errors are caught and reported),
encode, decode each token's bytes, and post a complete message carrying
the tokens and counts.  The reply carries no job identifier or
generation of any kind. -/
def workerOnMessage (catalog : String → Option Encoding) (text : Text)
    (model : String) : WorkerReply :=
  match catalog model with
  | some enc =>
    .complete (buildTokens enc (enc.encode text) 0)
      (enc.encode text).length (jsLength text) enc.name
  | none => .error "unsupported model"

/-- Three concrete tokens, for boundary checks of the grid. -/
def demoTokens3 : List TokenInfo :=
  [{ id := 72, text := [72], color := "#3b82f6", borderColor := "#1d4ed8" },
   { id := 73, text := [73], color := "#8b5cf6", borderColor := "#6d28d9" },
   { id := 74, text := [74], color := "#ec4899", borderColor := "#be185d" }]


/-
Helper lemmas about the UTF-8 model and the token-building loop.
-/

theorem utf8Step_length (b0 : Nat) (rest : Bytes) :
    (utf8Step b0 rest).2.length ≤ rest.length := by
  rw [utf8Step.eq_def]
  repeat' split
  all_goals simp_all
  all_goals omega

theorem utf8DecodeLoop_congr :
    ∀ (f1 : Nat) (b : Bytes) (f2 : Nat), b.length ≤ f1 → b.length ≤ f2 →
      utf8DecodeLoop f1 b = utf8DecodeLoop f2 b := by
  intro f1
  induction f1 with
  | zero =>
    intro b f2 h1 _
    have : b = [] := by
      cases b with
      | nil => rfl
      | cons x xs => simp at h1
    subst this
    cases f2 <;> rfl
  | succ f1 ih =>
    intro b f2 h1 h2
    cases b with
    | nil => cases f2 <;> rfl
    | cons b0 rest =>
      cases f2 with
      | zero => simp at h2
      | succ f2 =>
        rw [utf8DecodeLoop, utf8DecodeLoop]
        have hl := utf8Step_length b0 rest
        simp only [List.length_cons] at h1 h2
        rw [ih (utf8Step b0 rest).2 f2 (by omega) (by omega)]

theorem utf8Step_encodeChar2 (c : Nat) (h1 : 128 ≤ c) (h2 : c < 2048) (r : Bytes) :
    utf8Step (192 + c / 64) ((128 + c % 64) :: r) = (c, r) := by
  rw [utf8Step.eq_def]
  rw [if_neg (by omega), if_neg (by omega), if_pos (by omega)]
  dsimp only
  rw [if_pos (by omega : 128 ≤ 128 + c % 64 ∧ 128 + c % 64 < 192)]
  have hv : (192 + c / 64 - 192) * 64 + (128 + c % 64 - 128) = c := by omega
  rw [hv]

theorem utf8Step_encodeChar3 (c : Nat) (h1 : 2048 ≤ c) (h2 : c < 65536)
    (hsur : c < 55296 ∨ 57344 ≤ c) (r : Bytes) :
    utf8Step (224 + c / 4096) ((128 + c / 64 % 64) :: (128 + c % 64) :: r) = (c, r) := by
  rw [utf8Step.eq_def]
  rw [if_neg (by omega), if_neg (by omega), if_neg (by omega), if_pos (by omega)]
  dsimp only
  rw [if_pos (by omega :
    128 ≤ 128 + c / 64 % 64 ∧ 128 + c / 64 % 64 < 192 ∧ 128 ≤ 128 + c % 64 ∧ 128 + c % 64 < 192)]
  have hv : (224 + c / 4096 - 224) * 4096 + (128 + c / 64 % 64 - 128) * 64 +
      (128 + c % 64 - 128) = c := by omega
  rw [hv]
  rw [if_pos ⟨h1, hsur⟩]

theorem utf8Step_encodeChar4 (c : Nat) (h1 : 65536 ≤ c) (h2 : c < 1114112) (r : Bytes) :
    utf8Step (240 + c / 262144)
      ((128 + c / 4096 % 64) :: (128 + c / 64 % 64) :: (128 + c % 64) :: r) = (c, r) := by
  rw [utf8Step.eq_def]
  rw [if_neg (by omega), if_neg (by omega), if_neg (by omega), if_neg (by omega),
    if_pos (by omega)]
  dsimp only
  rw [if_pos (by omega :
    128 ≤ 128 + c / 4096 % 64 ∧ 128 + c / 4096 % 64 < 192 ∧
    128 ≤ 128 + c / 64 % 64 ∧ 128 + c / 64 % 64 < 192 ∧
    128 ≤ 128 + c % 64 ∧ 128 + c % 64 < 192)]
  have hv : (240 + c / 262144 - 240) * 262144 + (128 + c / 4096 % 64 - 128) * 4096 +
      (128 + c / 64 % 64 - 128) * 64 + (128 + c % 64 - 128) = c := by omega
  rw [hv]
  rw [if_pos ⟨h1, h2⟩]

theorem utf8DecodeRepl_encodeChar (c : Nat) (hs : ScalarValue c) (r : Bytes) :
    utf8DecodeRepl (utf8EncodeChar c ++ r) = c :: utf8DecodeRepl r := by
  obtain ⟨hlt, hsur⟩ := hs
  unfold utf8DecodeRepl
  by_cases hc1 : c < 128
  · rw [utf8EncodeChar, if_pos hc1]
    simp only [List.cons_append, List.nil_append, List.length_cons]
    rw [utf8DecodeLoop]
    have hstep : utf8Step c r = (c, r) := by
      rw [utf8Step.eq_def, if_pos hc1]
    rw [hstep]
  · by_cases hc2 : c < 2048
    · rw [utf8EncodeChar, if_neg hc1, if_pos hc2]
      simp only [List.cons_append, List.nil_append, List.length_cons]
      rw [utf8DecodeLoop]
      rw [utf8Step_encodeChar2 c (by omega) hc2 r]
      dsimp only
      rw [utf8DecodeLoop_congr (r.length + 1) r r.length (by omega) (le_refl _)]
    · by_cases hc3 : c < 65536
      · rw [utf8EncodeChar, if_neg hc1, if_neg hc2, if_pos hc3]
        simp only [List.cons_append, List.nil_append, List.length_cons]
        rw [utf8DecodeLoop]
        rw [utf8Step_encodeChar3 c (by omega) hc3 hsur r]
        dsimp only
        rw [utf8DecodeLoop_congr (r.length + 1 + 1) r r.length (by omega) (le_refl _)]
      · rw [utf8EncodeChar, if_neg hc1, if_neg hc2, if_neg hc3]
        simp only [List.cons_append, List.nil_append, List.length_cons]
        rw [utf8DecodeLoop]
        rw [utf8Step_encodeChar4 c (by omega) hlt r]
        dsimp only
        rw [utf8DecodeLoop_congr (r.length + 1 + 1 + 1) r r.length (by omega) (le_refl _)]

theorem utf8DecodeRepl_encode_append (t : Text) (hs : ScalarText t) (r : Bytes) :
    utf8DecodeRepl (utf8Encode t ++ r) = t ++ utf8DecodeRepl r := by
  induction t with
  | nil => simp [utf8Encode]
  | cons c t ih =>
    have hc : ScalarValue c := hs c (by simp)
    have ht : ScalarText t := fun x hx => hs x (by simp [hx])
    have henc : utf8Encode (c :: t) = utf8EncodeChar c ++ utf8Encode t := by
      simp [utf8Encode]
    rw [henc, List.append_assoc, utf8DecodeRepl_encodeChar c ⟨hc.1, hc.2⟩ _, ih ht]
    rfl

theorem utf8DecodeRepl_encode (t : Text) (hs : ScalarText t) :
    utf8DecodeRepl (utf8Encode t) = t := by
  have h := utf8DecodeRepl_encode_append t hs []
  simpa [show utf8DecodeRepl [] = [] from rfl] using h

theorem utf8DecodeRepl_flatten (bl : List Bytes) (h : ∀ b ∈ bl, ValidUtf8 b) :
    utf8DecodeRepl bl.flatten = (bl.map utf8DecodeRepl).flatten := by
  induction bl with
  | nil => rfl
  | cons b bl ih =>
    obtain ⟨t, hst, hb⟩ := h b (by simp)
    subst hb
    simp only [List.flatten_cons, List.map_cons]
    rw [utf8DecodeRepl_encode_append t hst, ih (fun x hx => h x (by simp [hx])),
      utf8DecodeRepl_encode t hst]

theorem buildTokens_length (enc : Encoding) :
    ∀ (ids : List Nat) (i : Nat), (buildTokens enc ids i).length = ids.length := by
  intro ids
  induction ids with
  | nil => intro i; rfl
  | cons id rest ih => intro i; simp [buildTokens, ih]

theorem buildTokens_texts (enc : Encoding) :
    ∀ (ids : List Nat) (i : Nat),
      (buildTokens enc ids i).map (·.text)
        = ids.map (fun id => utf8DecodeRepl (enc.decodeSingleTokenBytes id)) := by
  intro ids
  induction ids with
  | nil => intro i; rfl
  | cons id rest ih => intro i; simp [buildTokens, ih]

/-- Claim C1 (amended): for any encoding satisfying the BPE
byte-concatenation guarantee at the input, concatenating the tokens'
text fields in sequence order reproduces the input exactly provided
every token's byte sequence is itself valid UTF-8 (no character split
across token boundaries). -/
theorem roundTrip_amended (enc : Encoding) (t : Text)
    (hscalar : ScalarText t)
    (hfaith : ByteFaithfulOn enc t)
    (hvalid : ∀ id ∈ enc.encode t, ValidUtf8 (enc.decodeSingleTokenBytes id)) :
    joinTokenTexts (tokenizeEffect enc t).tokens = t := by
  by_cases ht : t = []
  · subst ht; rfl
  · unfold tokenizeEffect
    rw [if_pos ht]
    unfold joinTokenTexts
    dsimp only
    rw [buildTokens_texts]
    have hmaps : (enc.encode t).map (fun id => utf8DecodeRepl (enc.decodeSingleTokenBytes id))
        = ((enc.encode t).map enc.decodeSingleTokenBytes).map utf8DecodeRepl := by
      rw [List.map_map]
      rfl
    rw [hmaps]
    rw [← utf8DecodeRepl_flatten _ (by
      intro b hb
      simp only [List.mem_map] at hb
      obtain ⟨id, hid, hb⟩ := hb
      subst hb
      exact hvalid id hid)]
    rw [hfaith]
    exact utf8DecodeRepl_encode t hscalar

/-- Claim C1 (counterexample): for the one-character input U+00E9 and a
byte-level encoding (byte-faithful at that input, as every byte-level
BPE vocabulary is on unmerged bytes), the two produced tokens decode
independently to U+FFFD each, so the concatenation of text fields does
not reproduce the input. -/
theorem roundTrip_counterexample :
    ByteFaithfulOn byteLevelEnc [233] ∧
    joinTokenTexts (tokenizeEffect byteLevelEnc [233]).tokens ≠ [233] := by
  decide

/-- Witness for roundTrip_amended at the input "H" and the byte-level
encoding. -/
theorem roundTrip_amended_witness :
    joinTokenTexts (tokenizeEffect byteLevelEnc [72]).tokens = [72] :=
  roundTrip_amended byteLevelEnc [72] (by decide) (by decide)
    (by
      intro id hid
      have hid72 : id = 72 := by simpa [byteLevelEnc, byteLevelEncoding, utf8Encode,
        utf8EncodeChar] using hid
      subst hid72
      exact ⟨[72], by decide, by decide⟩)

/-- Claim C2 (code evaluation at the failing input): the control-thread
transition for the debounce firing on the text "H" itself computes the
full encode/decode loop output synchronously - the token list is
produced inside the very step function of the UI thread, with no
worker dispatch. -/
theorem controlThread_runs_encode_loop :
    (step demoPendingState Event.debounceFire).tokens
      = buildTokens byteLevelEnc (byteLevelEnc.encode [72]) 0 := rfl

/-- Claim C3 (code evaluation at the failing scenario): submitting text
"A" and then text "BB" processes both jobs synchronously, in submission
order, inside the control-thread transitions; the final live stream is
the tokenization of "BB".  No job generation counter exists anywhere in
the state, and the worker reply type of the bundled script carries no
generation either. -/
theorem results_apply_in_submission_order :
    (run emptyState [Event.setText [65], Event.debounceFire,
        Event.setText [66, 66], Event.debounceFire]).tokens
      = (tokenizeEffect byteLevelEnc [66, 66]).tokens := by decide

/-- Claim C4 (counterexample): the user types "H", the debounce fires,
the user types "HH", and then switches the model before the debounce
fires again.  The job emitted by the model change tokenizes the stale
debounced snapshot "H", not the latest text "HH". -/
theorem modelChange_usesStaleText_counterexample :
    (run emptyState [Event.setText [72], Event.debounceFire, Event.setText [72, 72],
        Event.setModel byteLevelEnc2]).tokens
      = (tokenizeEffect byteLevelEnc2 [72]).tokens ∧
    (run emptyState [Event.setText [72], Event.debounceFire, Event.setText [72, 72],
        Event.setModel byteLevelEnc2]).tokens
      ≠ (tokenizeEffect byteLevelEnc2 [72, 72]).tokens := by decide

/-- Claim C4 (amended): on a model change a tokenization job runs
immediately, in that very transition, with no debounce wait - but it
carries the current debounced text snapshot, not necessarily the
latest text. -/
theorem modelChange_immediate_debouncedText (s : CompState) (enc : Encoding) :
    step s (Event.setModel enc) = runTokenizeAndSelect { s with enc := enc } ∧
    (step s (Event.setModel enc)).tokens = (tokenizeEffect enc s.debouncedText).tokens :=
  ⟨rfl, rfl⟩

/-- Claim C5: for every completed tokenization result, tokenCount
equals the length of the produced token list, and charCount equals the
(UTF-16) length of the input text that was tokenized. -/
theorem count_consistency (enc : Encoding) (t : Text) :
    (tokenizeEffect enc t).tokenCount = (tokenizeEffect enc t).tokens.length ∧
    (tokenizeEffect enc t).charCount = jsLength t := by
  by_cases ht : t = []
  · subst ht; exact ⟨rfl, rfl⟩
  · unfold tokenizeEffect
    rw [if_pos ht]
    exact ⟨(buildTokens_length enc (enc.encode t) 0).symm, rfl⟩

/-- Claim C6: tokenizing the empty string short-circuits - it yields
an empty token stream, tokenCount 0 and no selected token, and the
result does not depend on the encoder at all (the encoder is never
invoked in the empty branch). -/
theorem emptyInput_shortCircuit (s : CompState) (enc1 enc2 : Encoding) :
    (runTokenizeAndSelect { s with debouncedText := [] }).tokens = [] ∧
    (runTokenizeAndSelect { s with debouncedText := [] }).tokenCount = 0 ∧
    (runTokenizeAndSelect { s with debouncedText := [] }).selectedToken = none ∧
    tokenizeEffect enc1 [] = tokenizeEffect enc2 [] :=
  ⟨rfl, rfl, rfl, rfl⟩

/-- Claim C7 (counterexample): after a resize to width 800 the grid
has 6 columns; a subsequent resize event with width 0 is skipped by
the width > 0 guard, so the grid keeps 6 columns rather than falling
back to a single column. -/
theorem zeroWidth_keepsPrevColumns_counterexample :
    (applyResize (applyResize initialGridState 800) 0).gridColumns = 6 ∧
    (applyResize (applyResize initialGridState 800) 0).gridColumns ≠ 1 := by
  have hfloor : Int.floor ((800 : ℚ) / TOKEN_MIN_WIDTH) = 10 := by
    rw [TOKEN_MIN_WIDTH, Int.floor_eq_iff]; norm_num
  have hcc : computeColumns 800 = 6 := by
    unfold computeColumns
    rw [hfloor]
    decide
  have h0 : ∀ gg : GridState, applyResize gg 0 = gg := by
    intro gg
    unfold applyResize
    rw [if_neg (by norm_num)]
  have h6 : (applyResize initialGridState 800).gridColumns = 6 := by
    unfold applyResize
    rw [if_pos (by norm_num : (0:ℚ) < 800)]
    exact hcc
  rw [h0]
  exact ⟨h6, by rw [h6]; decide⟩

/-- Claim C7 (amended): every resize with a positive width computes
columns = max(1, floor(width / TOKEN_MIN_WIDTH) - 4); widths below the
400px breakpoint yield the fixed minimum of one column through the same
formula; a resize with width 0 or negative is ignored, retaining the
previous column count, which is 1 initially. -/
theorem gridColumns_formula (g : GridState) (w : ℚ) :
    initialGridState.gridColumns = 1 ∧
    (0 < w → (applyResize g w).gridColumns
      = (max 1 (Int.floor (w / TOKEN_MIN_WIDTH) - 4)).toNat) ∧
    (¬ 0 < w → applyResize g w = g) ∧
    (0 < w → w < 400 → (applyResize g w).gridColumns = 1) := by
  refine ⟨rfl, ?_, ?_, ?_⟩
  · intro hw
    unfold applyResize
    rw [if_pos hw]
    rfl
  · intro hw
    unfold applyResize
    rw [if_neg hw]
  · intro hw h400
    unfold applyResize
    rw [if_pos hw]
    show computeColumns w = 1
    unfold computeColumns
    have hfl : Int.floor (w / TOKEN_MIN_WIDTH) < 5 := by
      rw [Int.floor_lt]
      push_cast
      rw [TOKEN_MIN_WIDTH]
      rw [div_lt_iff₀ (by norm_num : (0:ℚ) < 80)]
      have h58 : (5:ℚ) * 80 = 400 := by norm_num
      rw [h58]
      exact h400
    rw [max_eq_left (by omega : Int.floor (w / TOKEN_MIN_WIDTH) - 4 ≤ 1)]
    rfl

/-- Witness for gridColumns_formula at width 160. -/
theorem gridColumns_formula_witness :
    (applyResize initialGridState 160).gridColumns
      = (max 1 (Int.floor ((160 : ℚ) / TOKEN_MIN_WIDTH) - 4)).toNat ∧
    (applyResize initialGridState 160).gridColumns = 1 :=
  ⟨(gridColumns_formula initialGridState 160).2.1 (by norm_num),
   (gridColumns_formula initialGridState 160).2.2.2 (by norm_num) (by norm_num)⟩

/-- The rational ceiling in rowCount agrees with the natural-number
ceiling division. -/
theorem rowCount_eq_ceilDiv (n c : Nat) (hc : 0 < c) :
    rowCount n c = (n + c - 1) / c := by
  unfold rowCount
  have hcq : (0:ℚ) < (c:ℚ) := by exact_mod_cast hc
  have hmod := Nat.div_add_mod (n + c - 1) c
  have hmlt : (n + c - 1) % c < c := Nat.mod_lt _ hc
  generalize hQ : (n + c - 1) / c = Q at hmod ⊢
  have h1 : n ≤ c * Q := by
    generalize hB : c * Q = B at hmod ⊢
    omega
  have h2 : c * Q < n + c := by
    generalize hB : c * Q = B at hmod ⊢
    omega
  have hceil : Int.ceil ((n:ℚ) / (c:ℚ)) = (Q:ℤ) := by
    rw [Int.ceil_eq_iff]
    constructor
    · rw [lt_div_iff₀ hcq]
      have h2q : (c:ℚ) * (Q:ℚ) < (n:ℚ) + (c:ℚ) := by exact_mod_cast h2
      push_cast
      nlinarith
    · rw [div_le_iff₀ hcq]
      have h1q : (n:ℚ) ≤ (c:ℚ) * (Q:ℚ) := by exact_mod_cast h1
      push_cast
      nlinarith
  rw [hceil]
  exact Int.toNat_natCast Q

/-- Claim C8: the virtualized grid uses
rowCount = ceil(tokenCount / columns), maps the visible cell (row, col)
to the flat token index row * columns + col, renders nothing for a cell
whose flat index reaches tokenCount (total, in-bounds lookup only), and
every in-range index lies in a row below rowCount. -/
theorem virtualGrid_mapping (tokens : List TokenInfo) (gridColumns row col : Nat)
    (hc : 0 < gridColumns) :
    rowCount tokens.length gridColumns
      = (tokens.length + gridColumns - 1) / gridColumns ∧
    renderCell tokens row col gridColumns
      = tokens.get? (row * gridColumns + col) ∧
    (tokens.length ≤ row * gridColumns + col →
      renderCell tokens row col gridColumns = none) ∧
    (row * gridColumns + col < tokens.length →
      row < rowCount tokens.length gridColumns) := by
  refine ⟨rowCount_eq_ceilDiv tokens.length gridColumns hc, rfl, ?_, ?_⟩
  · intro hle
    unfold renderCell cellTokenIndex
    exact List.get?_eq_none.mpr hle
  · intro hlt
    have hrow : row * gridColumns < tokens.length :=
      Nat.lt_of_le_of_lt (Nat.le_add_right _ _) hlt
    have hcq : (0:ℚ) < (gridColumns:ℚ) := by exact_mod_cast hc
    unfold rowCount
    rw [Int.lt_toNat]
    rw [Int.lt_ceil]
    rw [lt_div_iff₀ hcq]
    exact_mod_cast hrow

/-- Witness for virtualGrid_mapping: with 3 tokens in 2 columns, cell
(1,1) has flat index 3 and renders nothing, and the row count is the
ceiling division. -/
theorem virtualGrid_mapping_witness :
    rowCount demoTokens3.length 2 = (demoTokens3.length + 2 - 1) / 2 ∧
    renderCell demoTokens3 1 1 2 = none :=
  ⟨(virtualGrid_mapping demoTokens3 2 1 1 (by decide)).1,
   (virtualGrid_mapping demoTokens3 2 1 1 (by decide)).2.2.1 (by decide)⟩

/-- Any run of the tokenize and auto-select effects establishes the
selection invariant. -/
theorem selectionInvariant_runTokenizeAndSelect (s : CompState) :
    selectionInvariant (runTokenizeAndSelect s) := by
  unfold selectionInvariant runTokenizeAndSelect
  cases h : (tokenizeEffect s.enc s.debouncedText).tokens with
  | nil => left; simp [h]
  | cons tok rest =>
    right
    refine ⟨tok, ?_, ?_⟩
    · simp [h]
    · simp [h]

/-- Every control-thread transition preserves the selection
invariant. -/
theorem selectionInvariant_step (s : CompState) (e : Event)
    (h : selectionInvariant s) : selectionInvariant (step s e) := by
  cases e with
  | setText t =>
    unfold step
    unfold selectionInvariant at h ⊢
    simpa using h
  | debounceFire =>
    unfold step
    by_cases heq : s.debouncedText = s.text
    · rw [if_pos heq]; exact h
    · rw [if_neg heq]
      exact selectionInvariant_runTokenizeAndSelect _
  | setModel enc => exact selectionInvariant_runTokenizeAndSelect _
  | clickToken i =>
    simp only [step]
    cases hget : s.tokens.get? i with
    | none => exact h
    | some tok =>
      right
      exact ⟨tok, List.get?_mem hget, rfl⟩

/-- Claim C9: whenever a new token stream replaces the old one, the
selection becomes the stream's first token, or none when the stream is
empty (head? of the new stream); consequently, over any event sequence
from a state satisfying the invariant, the selection - if present -
always refers to a token of the current live stream. -/
theorem selection_default_and_live (s : CompState) (es : List Event)
    (h : selectionInvariant s) :
    (∀ s2 : CompState, (runTokenizeAndSelect s2).selectedToken
      = (runTokenizeAndSelect s2).tokens.head?) ∧
    selectionInvariant (run s es) := by
  refine ⟨fun s2 => rfl, ?_⟩
  induction es generalizing s with
  | nil => exact h
  | cons e es ih =>
    rw [run]
    exact ih (step s e) (selectionInvariant_step s e h)

/-- Witness for selection_default_and_live: typing "H" from the empty
state and letting the debounce fire keeps the invariant. -/
theorem selection_default_and_live_witness :
    selectionInvariant (run emptyState [Event.setText [72], Event.debounceFire]) :=
  (selection_default_and_live emptyState [Event.setText [72], Event.debounceFire]
    (Or.inl rfl)).2

/-- Claim C10: a rendered cell is marked selected exactly when its
token id equals the selected token's id (and never when no token is
selected); hence every occurrence of a duplicated vocabulary id in the
stream renders as selected. -/
theorem isSelected_by_id (sel token : TokenInfo) (tokens : List TokenInfo) :
    (isSelectedFlag (some sel) token = true ↔ sel.id = token.id) ∧
    isSelectedFlag none token = false ∧
    (∀ tok ∈ tokens, tok.id = sel.id → isSelectedFlag (some sel) tok = true) := by
  refine ⟨?_, rfl, ?_⟩
  · unfold isSelectedFlag
    exact beq_iff_eq
  · intro tok _ hid
    unfold isSelectedFlag
    rw [hid]
    exact beq_self_eq_true sel.id

/-- Witness for isSelected_by_id: in the stream for "HH" both tokens
share id 72, and the second cell is marked selected when the first
token is the selection. -/
theorem isSelected_by_id_witness :
    isSelectedFlag (some { id := 72, text := [72], color := "#3b82f6", borderColor := "#1d4ed8" })
      { id := 72, text := [72], color := "#8b5cf6", borderColor := "#6d28d9" } = true :=
  (isSelected_by_id
      { id := 72, text := [72], color := "#3b82f6", borderColor := "#1d4ed8" }
      { id := 72, text := [72], color := "#8b5cf6", borderColor := "#6d28d9" }
      (tokenizeEffect byteLevelEnc [72, 72]).tokens).2.2
    { id := 72, text := [72], color := "#8b5cf6", borderColor := "#6d28d9" }
    (by decide) (by decide)

end TokViz
